import Mathlib

/-!
Shallow embedding of the AILLE framework (aille.hpp and aille_audit.cpp):
the decision-fusion pipeline (safety filter, sign-consensus evaluation,
rolling fallback buffer, decision composition) and the hash-chained audit
ledger.  C++ `float` values are modelled as exact rationals (`ℚ`) where the
code only compares and averages them, and as reals (`ℝ`) where the code
applies the transcendental `std::tanh`.  The implementation-defined pieces
(`std::hash<std::string>`, iostream float formatting, `strftime`) are taken
as parameters, since every claim holds for every choice of them.
-/

namespace AILLE

/-- DecisionStatus enum from aille.hpp. -/
inductive DecisionStatus where
  | DECISION_VALID
  | REJECTED_LOW_CONFIDENCE
  | REJECTED_NO_CONSENSUS
  | FALLBACK_ACTIVATED
  | ERROR_NO_MODELS
deriving DecidableEq, Repr

open DecisionStatus

/-- ModelSignal from aille.hpp: one model's prediction. -/
structure ModelSignal where
  value : ℚ
  confidence : ℚ
  timestamp_ns : ℕ
  model_id : ℤ
deriving DecidableEq, Repr

/-- Decision from aille.hpp: the engine's output record. -/
structure Decision where
  final_value : ℝ
  status : DecisionStatus
  confidence : ℚ
  models_agreed : ℕ
  fallback_used : Bool
  timestamp_ns : ℕ
  contributing_models : List ℤ
  reasoning : String

/-- The Decision() default constructor from aille.hpp. -/
def defaultDecision : Decision :=
  { final_value := 0, status := ERROR_NO_MODELS, confidence := 0,
    models_agreed := 0, fallback_used := false, timestamp_ns := 0,
    contributing_models := [], reasoning := "" }

/-- AILLEConfig from aille.hpp. -/
structure AILLEConfig where
  min_confidence_threshold : ℚ
  grace_confidence_threshold : ℚ
  min_models_required : ℕ
  sign_agreement_threshold : ℚ
  fallback_window_size : ℕ
  fallback_position_scale : ℝ
  max_model_count : ℕ

/-- The AILLEConfig() default constructor from aille.hpp. -/
def defaultConfig : AILLEConfig :=
  { min_confidence_threshold := 0.35,
    grace_confidence_threshold := 0.25,
    min_models_required := 2,
    sign_agreement_threshold := 0.66,
    fallback_window_size := 50,
    fallback_position_scale := 0.1,
    max_model_count := 10 }

/-- State of an AILLEEngine object: its config and the rolling
fallback buffer (`std::deque<float>`, front = oldest). -/
structure AILLEEngine where
  config : AILLEConfig
  fallback_buffer : List ℝ

/-- AILLEEngine::calculateFallbackValue: mean of the buffer, 0 if empty. -/
noncomputable def calculateFallbackValue (buf : List ℝ) : ℝ :=
  if buf = [] then 0 else (buf.foldl (· + ·) 0) / buf.length

/-- The `while (size > window) pop_front()` loop inside
AILLEEngine::updateFallbackBuffer. -/
def fallbackTrim (w : ℕ) (l : List ℝ) : List ℝ :=
  if _h : l.length > w then fallbackTrim w l.tail else l
termination_by l.length
decreasing_by
  simp only [List.length_tail]
  omega

/-- AILLEEngine::updateFallbackBuffer: push_back then evict from the
front while the size exceeds the window. -/
def updateFallbackBuffer (w : ℕ) (buf : List ℝ) (v : ℝ) : List ℝ :=
  fallbackTrim w (buf ++ [v])

/-- AILLEEngine::smoothPosition: `std::tanh(signal * scale)`. -/
noncomputable def smoothPosition (signal : ℚ) (scale : ℚ) : ℝ :=
  Real.tanh ((signal : ℝ) * (scale : ℝ))

/-- Loop body of AILLEEngine::applySafetyLayer: signals at or above the
minimum confidence pass unchanged; signals at or above the grace
threshold pass with confidence scaled by 0.8; the rest are dropped.
The C++ loop push_backs onto a growing vector, modelled as a left fold. -/
def applySafetyLayer (cfg : AILLEConfig) (signals : List ModelSignal) :
    List ModelSignal :=
  signals.foldl
    (fun valid sig =>
      if cfg.min_confidence_threshold ≤ sig.confidence then
        valid ++ [sig]
      else if cfg.grace_confidence_threshold ≤ sig.confidence then
        valid ++ [{ sig with confidence := sig.confidence * 0.8 }]
      else valid)
    []

/-- The `(val >= 0) ? 1.0f : -1.0f` sign convention used throughout
aille.hpp: zero counts as positive. -/
def signOf (v : ℚ) : ℚ := if 0 ≤ v then 1 else -1

/-- AILLEEngine::checkConsensus.  Returns (ok, consensus_value,
models_agreed); the C++ leaves the `consensus_value` out-parameter
unassigned on failure (the caller never reads it then), modelled as 0.
The two counting loops and the summing loop are modelled as left folds. -/
def checkConsensus (cfg : AILLEConfig) (valid_signals : List ModelSignal) :
    Bool × ℚ × ℕ :=
  if valid_signals.length < cfg.min_models_required then (false, 0, 0)
  else
    let values := valid_signals.foldl (fun acc sig => acc ++ [sig.value]) []
    let sorted := values.insertionSort (fun a b => a ≤ b)
    let median := sorted.getD (sorted.length / 2) 0
    let median_sign := signOf median
    let agreement_count : ℕ :=
      values.foldl (fun n v => if signOf v = median_sign then n + 1 else n) 0
    let agreement_ratio : ℚ := (agreement_count : ℚ) / values.length
    if cfg.sign_agreement_threshold ≤ agreement_ratio ∧
        cfg.min_models_required ≤ agreement_count then
      let sum := valid_signals.foldl
        (fun s sig => if signOf sig.value = median_sign then s + sig.value else s) 0
      let count : ℕ := valid_signals.foldl
        (fun n sig => if signOf sig.value = median_sign then n + 1 else n) 0
      (true, sum / (count : ℚ), agreement_count)
    else (false, 0, agreement_count)

/-- AILLEEngine::getFallbackValue: sign of the buffer mean (0 counts as
positive) times the configured fallback position scale. -/
noncomputable def getFallbackValue (e : AILLEEngine) : ℝ :=
  (if 0 ≤ calculateFallbackValue e.fallback_buffer then (1 : ℝ) else -1) *
    e.config.fallback_position_scale

/-- AILLEEngine::makeDecision.  The C++ method mutates the engine's
fallback buffer on the valid branch, so the embedding returns the
decision together with the updated engine state.  `now` is the
timestamp the C++ reads from the high-resolution clock at entry. -/
noncomputable def makeDecision (e : AILLEEngine) (now : ℕ)
    (model_signals : List ModelSignal) : Decision × AILLEEngine :=
  let d0 := { defaultDecision with timestamp_ns := now }
  if model_signals = [] then
    ({ d0 with status := ERROR_NO_MODELS, reasoning := "No model inputs" }, e)
  else
    let valid := applySafetyLayer e.config model_signals
    if valid = [] then
      ({ d0 with status := REJECTED_LOW_CONFIDENCE,
                 final_value := getFallbackValue e,
                 confidence := 0.1,
                 fallback_used := true,
                 reasoning := "All models failed confidence - fallback" }, e)
    else
      let r := checkConsensus e.config valid
      if r.1 = false then
        ({ d0 with status := REJECTED_NO_CONSENSUS,
                   final_value := getFallbackValue e,
                   confidence := 0.2,
                   fallback_used := true,
                   models_agreed := r.2.2,
                   reasoning := "No consensus - fallback" }, e)
      else
        let fv := smoothPosition r.2.1 100
        ({ d0 with status := DECISION_VALID,
                   final_value := fv,
                   confidence :=
                     (valid.foldl (fun s sig => s + sig.confidence) 0) /
                       (valid.length : ℚ),
                   models_agreed := r.2.2,
                   contributing_models :=
                     valid.foldl (fun acc sig => acc ++ [sig.model_id]) [],
                   fallback_used := false,
                   reasoning := "Consensus: " ++ (toString r.2.2) ++ " models" },
         { e with fallback_buffer :=
             (updateFallbackBuffer e.config.fallback_window_size
               e.fallback_buffer fv) })

/-- AILLEEngine::reset: clear the fallback buffer. -/
def resetEngine (e : AILLEEngine) : AILLEEngine :=
  { e with fallback_buffer := [] }

/-! ### Audit ledger (AuditLogger from aille.hpp)

`std::hash<std::string>` and the iostream rendering of floats are
implementation-defined, so they enter the embedding as parameters
`strHash` and `floatStr`; `timeStr` stands for the strftime rendering of
the timestamp used only in the CSV line.  Every claim about the ledger
holds for all choices of these parameters. -/

/-- The genesis sentinel the logger starts from and verifyIntegrity
checks the first record against. -/
def genesisHash : String := "0000000000000000"

/-- The `std::hex << setfill('0') << setw(16)` rendering of a `size_t`
hash value: lowercase hexadecimal, left-padded with zeros to 16 digits. -/
def toHex16 (n : ℕ) : String :=
  let ds := Nat.toDigits 16 (n % 2 ^ 64)
  String.mk (List.replicate (16 - ds.length) '0' ++ ds)

/-- AuditRecord from aille.hpp (the single-header variant: no
contributing_models and no user_id field). -/
structure AuditRecord where
  timestamp_ns : ℕ
  decision_id : ℕ
  status : DecisionStatus
  final_value : ℝ
  confidence : ℝ
  models_agreed : ℕ
  fallback_used : Bool
  reasoning : String
  symbol : String
  strategy_id : String
  hash : String
  prev_hash : String

/-- AuditLogger::computeHash from aille.hpp: digest of the stream
concatenation `timestamp_ns << decision_id << final_value << confidence
<< reasoning << prev_hash` (note: status, models_agreed, fallback_used,
symbol and strategy_id are not streamed). -/
def computeHash (strHash : String → ℕ) (floatStr : ℝ → String)
    (record : AuditRecord) : String :=
  toHex16 (strHash (toString record.timestamp_ns ++ toString record.decision_id
    ++ floatStr record.final_value ++ floatStr record.confidence
    ++ record.reasoning ++ record.prev_hash))

/-- AuditLogger::statusToString from aille.hpp. -/
def statusToString (s : DecisionStatus) : String :=
  match s with
  | DECISION_VALID => "VALID"
  | REJECTED_LOW_CONFIDENCE => "REJECTED_CONF"
  | REJECTED_NO_CONSENSUS => "REJECTED_CONSENSUS"
  | FALLBACK_ACTIVATED => "FALLBACK"
  | ERROR_NO_MODELS => "ERROR"

/-- State of an AuditLogger object.  `file_open` records whether the
backing `std::ofstream` is open; `file_lines` are the lines written to
it so far. -/
structure AuditLogger where
  file_open : Bool
  file_lines : List String
  audit_trail : List AuditRecord
  next_decision_id : ℕ
  last_hash : String

/-- A logger as the AuditLogger() constructor leaves it; `file_open`
records whether a subsequent open() succeeded. -/
def freshLogger (file_open : Bool) : AuditLogger :=
  { file_open := file_open, file_lines := [], audit_trail := [],
    next_decision_id := 1, last_hash := genesisHash }

/-- The AuditRecord built at the top of AuditLogger::logDecision,
with prev_hash taken from the logger's last_hash and hash computed
over the record's streamed fields. -/
def mkAuditRecord (strHash : String → ℕ) (floatStr : ℝ → String)
    (L : AuditLogger) (d : Decision) (symbol strategy : String) :
    AuditRecord :=
  let r0 : AuditRecord :=
    { timestamp_ns := d.timestamp_ns,
      decision_id := L.next_decision_id,
      status := d.status,
      final_value := d.final_value,
      confidence := (d.confidence : ℝ),
      models_agreed := d.models_agreed,
      fallback_used := d.fallback_used,
      reasoning := d.reasoning,
      symbol := symbol,
      strategy_id := strategy,
      hash := "",
      prev_hash := L.last_hash }
  { r0 with hash := computeHash strHash floatStr r0 }

/-- The CSV line AuditLogger::logDecision streams to the log file. -/
def csvLine (floatStr : ℝ → String) (timeStr : ℕ → String)
    (r : AuditRecord) : String :=
  timeStr r.timestamp_ns ++ "," ++ toString r.decision_id ++ ","
    ++ statusToString r.status ++ "," ++ floatStr r.final_value ++ ","
    ++ floatStr r.confidence ++ "," ++ toString r.models_agreed ++ ","
    ++ (if r.fallback_used then "true" else "false") ++ ",\""
    ++ r.reasoning ++ "\"," ++ r.symbol ++ "," ++ r.strategy_id ++ ","
    ++ r.hash ++ "," ++ r.prev_hash

/-- AuditLogger::logDecision from aille.hpp: build the record, advance
last_hash and the id counter, append to the in-memory trail, and append
a CSV line to the file only when the file is open.  The C++ method
returns void: the caller receives no success or failure indication,
modelled by the result being just the updated logger state. -/
def logDecision (strHash : String → ℕ) (floatStr : ℝ → String)
    (timeStr : ℕ → String) (L : AuditLogger) (d : Decision)
    (symbol strategy : String) : AuditLogger :=
  let r := mkAuditRecord strHash floatStr L d symbol strategy
  { L with last_hash := r.hash,
           next_decision_id := L.next_decision_id + 1,
           audit_trail := L.audit_trail ++ [r],
           file_lines :=
             (if L.file_open then L.file_lines ++ [csvLine floatStr timeStr r]
              else L.file_lines) }

/-- The loop of AuditLogger::verifyIntegrity: walk the trail comparing
each record's prev_hash with the running expected value (the previous
record's stored hash), never recomputing any digest. -/
def verifyChain : String → List AuditRecord → Bool
  | _, [] => true
  | expected, r :: rest =>
    if r.prev_hash = expected then verifyChain r.hash rest else false

/-- AuditLogger::verifyIntegrity from aille.hpp. -/
def verifyIntegrity (L : AuditLogger) : Bool :=
  if L.audit_trail.isEmpty then true
  else verifyChain genesisHash L.audit_trail

/-- A sequence of logDecision calls on one logger, each with its
decision and the symbol/strategy metadata strings. -/
def runLog (strHash : String → ℕ) (floatStr : ℝ → String)
    (timeStr : ℕ → String) (L : AuditLogger)
    (ds : List (Decision × String × String)) : AuditLogger :=
  ds.foldl (fun acc x => logDecision strHash floatStr timeStr acc x.1 x.2.1 x.2.2) L

/-- In-place tampering with the first stored record: its final_value is
overwritten while its hash and prev_hash fields (and every other
record) are left untouched, exactly as a direct memory mutation of the
stored trail would do. -/
def tamperFinalValue (L : AuditLogger) (v : ℝ) : AuditLogger :=
  { L with audit_trail :=
      L.audit_trail.modifyHead (fun r => { r with final_value := v }) }

/-! ### Engine operation sequences -/

/-- The operations a caller can perform on an engine's mutable state:
a makeDecision call (with the clock value it observes) or reset(). -/
inductive EngineOp where
  | call (now : ℕ) (signals : List ModelSignal)
  | reset

/-- Apply one operation to the engine state. -/
noncomputable def applyOp (e : AILLEEngine) : EngineOp → AILLEEngine
  | .call now signals => (makeDecision e now signals).2
  | .reset => resetEngine e

/-- Run a sequence of operations on the engine state. -/
noncomputable def runOps (e : AILLEEngine) (ops : List EngineOp) : AILLEEngine :=
  ops.foldl applyOp e

/-! ### Spec-side definitions

These definitions follow the wording of the specification, not the
source; the refinement theorems below compare them with the embedded
code. -/

/-- Spec wording of the safety filter, per signal: at or above
`min_confidence_threshold` pass unchanged; else at or above
`grace_confidence_threshold` pass with confidence multiplied by exactly
0.8; else drop. -/
def safetyFilterSpec (cfg : AILLEConfig) (sig : ModelSignal) :
    Option ModelSignal :=
  if cfg.min_confidence_threshold ≤ sig.confidence then some sig
  else if cfg.grace_confidence_threshold ≤ sig.confidence then
    some { sig with confidence := sig.confidence * 0.8 }
  else none

/-- Spec wording of the consensus evaluation: fewer than
`min_models_required` validated signals fails with `models_agreed = 0`;
otherwise the median is the element at index `n / 2` of the
ascending-sorted values, its sign is +1 when the median is ≥ 0 and −1
otherwise, `agreement_count` counts the signals sharing that sign, and
the evaluation succeeds exactly when `agreement_count / n` reaches
`sign_agreement_threshold` and `agreement_count` reaches
`min_models_required`, returning the arithmetic mean of the agreeing
signals' values. -/
def consensusSpec (cfg : AILLEConfig) (valid : List ModelSignal) :
    Bool × ℚ × ℕ :=
  let n := valid.length
  if n < cfg.min_models_required then (false, 0, 0)
  else
    let sorted := (valid.map (fun s => s.value)).insertionSort (fun a b => a ≤ b)
    let median := sorted.getD (n / 2) 0
    let msign := signOf median
    let agree := valid.countP (fun s => decide (signOf s.value = msign))
    if cfg.sign_agreement_threshold ≤ (agree : ℚ) / (n : ℚ) ∧
        cfg.min_models_required ≤ agree then
      (true,
       (((valid.filter (fun s => decide (signOf s.value = msign))).map
          (fun s => s.value)).sum) / (agree : ℚ),
       agree)
    else (false, 0, agree)

/-- Spec wording of the directional fallback: the sign of the mean of
the stored values (an empty store and a zero mean both count as +1)
times the scale. -/
noncomputable def directionalFallbackSpec (buf : List ℝ) (scale : ℝ) : ℝ :=
  (if 0 ≤ (if buf = [] then (0 : ℝ) else buf.sum / (buf.length : ℝ)) then (1 : ℝ)
   else -1) * scale

/-- Spec wording of the chain invariant: the first record's prev_hash is
the genesis sentinel and every later record's prev_hash is the
immediately preceding record's hash. -/
def chainFrom (prev : String) : List AuditRecord → Prop
  | [] => True
  | r :: rest => r.prev_hash = prev ∧ chainFrom r.hash rest

/-- The hash the chain ends with: the last record's hash, or the given
starting value for an empty list. -/
def chainEnd (prev : String) : List AuditRecord → String
  | [] => prev
  | r :: rest => chainEnd r.hash rest

namespace AuditCpp

/-- AuditRecord from aille_audit.cpp: this variant additionally stores
contributing_models and user_id. -/
structure AuditRecordC where
  timestamp_ns : ℕ
  decision_id : ℕ
  status : DecisionStatus
  final_value : ℝ
  confidence : ℝ
  models_agreed : ℕ
  fallback_used : Bool
  reasoning : String
  contributing_models : List ℤ
  symbol : String
  strategy_id : String
  user_id : String
  hash : String
  prev_hash : String

/-- AuditLogger::computeHash from aille_audit.cpp: unlike the aille.hpp
variant it also streams models_agreed, but still omits status,
fallback_used, contributing_models, symbol, strategy_id and user_id. -/
def computeHashC (strHash : String → ℕ) (floatStr : ℝ → String)
    (record : AuditRecordC) : String :=
  toHex16 (strHash (toString record.timestamp_ns ++ toString record.decision_id
    ++ floatStr record.final_value ++ floatStr record.confidence
    ++ toString record.models_agreed ++ record.reasoning ++ record.prev_hash))

end AuditCpp

/-! ### Helper lemmas about the imperative accumulation loops -/

theorem foldl_append_one {α β : Type} (g : α → β) (l : List α) :
    ∀ acc : List β, l.foldl (fun a x => a ++ [g x]) acc = acc ++ l.map g := by
  induction l with
  | nil => intro acc; simp
  | cons x xs ih => intro acc; simp [ih]

theorem foldl_count {α : Type} (p : α → Prop) [DecidablePred p] (l : List α) :
    ∀ c : ℕ, l.foldl (fun n x => if p x then n + 1 else n) c =
      c + l.countP (fun x => decide (p x)) := by
  induction l with
  | nil => intro c; simp
  | cons x xs ih =>
    intro c
    by_cases h : p x
    · simp [h, ih, List.countP_cons]
      omega
    · simp [h, ih, List.countP_cons]

theorem foldl_cond_sum {α : Type} (p : α → Prop) [DecidablePred p]
    (f : α → ℚ) (l : List α) :
    ∀ c : ℚ, l.foldl (fun s x => if p x then s + f x else s) c =
      c + ((l.filter (fun x => decide (p x))).map f).sum := by
  induction l with
  | nil => intro c; simp
  | cons x xs ih =>
    intro c
    by_cases h : p x
    · simp [h, ih, List.filter_cons]
      ring
    · simp [h, ih, List.filter_cons]

theorem foldl_add_sum {α : Type} (f : α → ℚ) (l : List α) :
    ∀ c : ℚ, l.foldl (fun s x => s + f x) c = c + (l.map f).sum := by
  induction l with
  | nil => intro c; simp
  | cons x xs ih => intro c; simp [ih]; ring

theorem safety_foldl (cfg : AILLEConfig) (l : List ModelSignal) :
    ∀ acc : List ModelSignal,
      l.foldl
        (fun valid sig =>
          if cfg.min_confidence_threshold ≤ sig.confidence then
            valid ++ [sig]
          else if cfg.grace_confidence_threshold ≤ sig.confidence then
            valid ++ [{ sig with confidence := sig.confidence * 0.8 }]
          else valid)
        acc = acc ++ l.filterMap (safetyFilterSpec cfg) := by
  induction l with
  | nil => intro acc; simp
  | cons x xs ih =>
    intro acc
    by_cases h1 : cfg.min_confidence_threshold ≤ x.confidence
    · simp [h1, ih, safetyFilterSpec, List.filterMap_cons]
    · by_cases h2 : cfg.grace_confidence_threshold ≤ x.confidence <;>
        simp [h1, h2, ih, safetyFilterSpec, List.filterMap_cons]

/-- C5 (safety filter refines its spec): each signal at or above the
minimum confidence passes unchanged, each one at or above the grace
threshold passes with confidence multiplied by exactly 0.8 and all other
fields unchanged, the rest are dropped, the output is the stable
order-preserving filterMap of the input with no other effect, and an
input whose signals all fall below the grace threshold yields the empty
sequence. -/
theorem applySafetyLayer_matches_spec (cfg : AILLEConfig)
    (signals : List ModelSignal) :
    applySafetyLayer cfg signals = signals.filterMap (safetyFilterSpec cfg) ∧
    ((∀ sig ∈ signals, sig.confidence < cfg.grace_confidence_threshold ∧
        sig.confidence < cfg.min_confidence_threshold) →
      applySafetyLayer cfg signals = []) := by
  have hmain : applySafetyLayer cfg signals =
      signals.filterMap (safetyFilterSpec cfg) := by
    simpa [applySafetyLayer] using safety_foldl cfg signals []
  refine ⟨hmain, fun hall => ?_⟩
  rw [hmain, List.filterMap_eq_nil_iff]
  intro sig hs
  have h := hall sig hs
  simp [safetyFilterSpec, if_neg (not_le.mpr h.2), if_neg (not_le.mpr h.1)]

/-- Witness for C5: under the default config a signal with confidence
0.1 (below the grace threshold) is dropped so the all-dropped input
yields [], and a signal with confidence 0.3 (between grace and minimum)
passes with its confidence multiplied by exactly 0.8. -/
theorem applySafetyLayer_matches_spec_witness :
    applySafetyLayer defaultConfig [⟨0.5, 0.1, 0, 7⟩] =
      ([⟨0.5, 0.1, 0, 7⟩] : List ModelSignal).filterMap
        (safetyFilterSpec defaultConfig) ∧
    (∀ sig ∈ ([⟨0.5, 0.1, 0, 7⟩] : List ModelSignal),
      sig.confidence < defaultConfig.grace_confidence_threshold ∧
      sig.confidence < defaultConfig.min_confidence_threshold) ∧
    applySafetyLayer defaultConfig [⟨0.5, 0.1, 0, 7⟩] = [] ∧
    applySafetyLayer defaultConfig [⟨0.5, 0.3, 0, 1⟩] = [⟨0.5, 0.24, 0, 1⟩] := by
  have hall : ∀ sig ∈ ([⟨0.5, 0.1, 0, 7⟩] : List ModelSignal),
      sig.confidence < defaultConfig.grace_confidence_threshold ∧
      sig.confidence < defaultConfig.min_confidence_threshold := by
    intro sig hs
    rw [List.mem_singleton] at hs
    subst hs
    exact ⟨by norm_num [defaultConfig], by norm_num [defaultConfig]⟩
  have h := applySafetyLayer_matches_spec defaultConfig [⟨0.5, 0.1, 0, 7⟩]
  refine ⟨h.1, hall, h.2 hall, ?_⟩
  norm_num [applySafetyLayer, defaultConfig]

/-- C3 (consensus evaluation refines its spec): with fewer than
`min_models_required` validated signals it fails with `models_agreed = 0`;
otherwise the median is the element at index `n / 2` of the
ascending-sorted values, a median of exactly 0 counts as sign +1,
`agreement_count` is the number of signals whose value shares the
median's sign, the evaluation succeeds exactly when
`agreement_count / n` reaches `sign_agreement_threshold` and
`agreement_count` reaches `min_models_required`, and on success the
value is the arithmetic mean of only the agreeing signals' values with
`models_agreed = agreement_count`. -/
theorem checkConsensus_matches_spec (cfg : AILLEConfig)
    (valid : List ModelSignal) :
    checkConsensus cfg valid = consensusSpec cfg valid := by
  by_cases h : valid.length < cfg.min_models_required
  · simp [checkConsensus, consensusSpec, h]
  · simp only [checkConsensus, consensusSpec, if_neg h,
      foldl_append_one, List.nil_append, foldl_count, foldl_cond_sum,
      List.countP_map, List.length_map, List.length_insertionSort,
      Function.comp_def, Nat.zero_add, zero_add]

/-! ### Evaluation lemmas for the four branches of makeDecision -/

theorem makeDecision_nil (e : AILLEEngine) (now : ℕ) :
    makeDecision e now [] =
      ({ final_value := 0, status := DecisionStatus.ERROR_NO_MODELS,
         confidence := 0, models_agreed := 0, fallback_used := false,
         timestamp_ns := now, contributing_models := [],
         reasoning := "No model inputs" }, e) := by
  simp [makeDecision, defaultDecision]

theorem makeDecision_rejected_low (e : AILLEEngine) (now : ℕ)
    (signals : List ModelSignal) (hne : signals ≠ [])
    (hvalid : applySafetyLayer e.config signals = []) :
    makeDecision e now signals =
      ({ final_value := getFallbackValue e,
         status := DecisionStatus.REJECTED_LOW_CONFIDENCE,
         confidence := 0.1, models_agreed := 0, fallback_used := true,
         timestamp_ns := now, contributing_models := [],
         reasoning := "All models failed confidence - fallback" }, e) := by
  simp [makeDecision, defaultDecision, hne, hvalid]

theorem makeDecision_no_consensus (e : AILLEEngine) (now : ℕ)
    (signals : List ModelSignal) (hne : signals ≠ [])
    (hvalid : applySafetyLayer e.config signals ≠ [])
    (hok : (checkConsensus e.config (applySafetyLayer e.config signals)).1 = false) :
    makeDecision e now signals =
      ({ final_value := getFallbackValue e,
         status := DecisionStatus.REJECTED_NO_CONSENSUS,
         confidence := 0.2,
         models_agreed :=
           (checkConsensus e.config (applySafetyLayer e.config signals)).2.2,
         fallback_used := true, timestamp_ns := now,
         contributing_models := [],
         reasoning := "No consensus - fallback" }, e) := by
  simp [makeDecision, defaultDecision, hne, hvalid, hok]

theorem makeDecision_valid_eq (e : AILLEEngine) (now : ℕ)
    (signals : List ModelSignal) (hne : signals ≠ [])
    (hvalid : applySafetyLayer e.config signals ≠ [])
    (hok : (checkConsensus e.config (applySafetyLayer e.config signals)).1 = true) :
    makeDecision e now signals =
      ({ final_value :=
           smoothPosition
             (checkConsensus e.config (applySafetyLayer e.config signals)).2.1 100,
         status := DecisionStatus.DECISION_VALID,
         confidence :=
           ((applySafetyLayer e.config signals).foldl
             (fun s sig => s + sig.confidence) 0) /
             ((applySafetyLayer e.config signals).length : ℚ),
         models_agreed :=
           (checkConsensus e.config (applySafetyLayer e.config signals)).2.2,
         fallback_used := false, timestamp_ns := now,
         contributing_models :=
           (applySafetyLayer e.config signals).foldl
             (fun acc sig => acc ++ [sig.model_id]) [],
         reasoning := "Consensus: " ++
           (toString (checkConsensus e.config (applySafetyLayer e.config signals)).2.2)
           ++ " models" },
       { e with fallback_buffer :=
           (updateFallbackBuffer e.config.fallback_window_size e.fallback_buffer
             (smoothPosition
               (checkConsensus e.config (applySafetyLayer e.config signals)).2.1
               100)) }) := by
  simp [makeDecision, defaultDecision, hne, hvalid, hok]

/-- C9: on the empty signal batch makeDecision always returns
ErrorNoModels with final_value 0, confidence 0 and fallback_used false,
leaves the engine untouched, and never consults the fallback buffer (the
returned decision is the same for every buffer content). -/
theorem makeDecision_empty_batch (e : AILLEEngine) (now : ℕ) :
    (makeDecision e now []).1.status = DecisionStatus.ERROR_NO_MODELS ∧
    (makeDecision e now []).1.final_value = 0 ∧
    (makeDecision e now []).1.confidence = 0 ∧
    (makeDecision e now []).1.fallback_used = false ∧
    (makeDecision e now []).2 = e ∧
    (∀ buf : List ℝ,
      (makeDecision { config := e.config, fallback_buffer := buf } now []).1 =
        (makeDecision e now []).1) := by
  simp [makeDecision_nil]

theorem calculateFallbackValue_eq (buf : List ℝ) :
    calculateFallbackValue buf =
      if buf = [] then (0 : ℝ) else buf.sum / (buf.length : ℝ) := by
  unfold calculateFallbackValue
  rcases eq_or_ne buf [] with h | h
  · simp [h]
  · simp only [if_neg h]
    rw [List.sum_eq_foldl]

theorem getFallbackValue_eq_spec (e : AILLEEngine) :
    getFallbackValue e =
      directionalFallbackSpec e.fallback_buffer e.config.fallback_position_scale := by
  unfold getFallbackValue directionalFallbackSpec
  rw [calculateFallbackValue_eq]

/-- C6 (the two rejection branches): for a non-empty batch, if the
safety filter removes every signal the decision is
RejectedLowConfidence with confidence 0.1, fallback_used true,
models_agreed 0 and final_value = sign(mean of the fallback store) *
fallback_position_scale with sign(0) = +1 (so +scale on an empty
store); if the filtered set is non-empty but consensus fails the
decision is RejectedNoConsensus with confidence 0.2, fallback_used
true, the same directional fallback value, and models_agreed as the
consensus evaluator reported. -/
theorem makeDecision_rejection_branches (e : AILLEEngine) (now : ℕ)
    (signals : List ModelSignal) :
    ((signals ≠ [] → applySafetyLayer e.config signals = [] →
      ((makeDecision e now signals).1.status =
          DecisionStatus.REJECTED_LOW_CONFIDENCE ∧
        (makeDecision e now signals).1.confidence = 0.1 ∧
        (makeDecision e now signals).1.fallback_used = true ∧
        (makeDecision e now signals).1.models_agreed = 0 ∧
        (makeDecision e now signals).1.final_value =
          directionalFallbackSpec e.fallback_buffer
            e.config.fallback_position_scale ∧
        (e.fallback_buffer = [] →
          (makeDecision e now signals).1.final_value =
            e.config.fallback_position_scale))) ∧
     (signals ≠ [] → applySafetyLayer e.config signals ≠ [] →
      (checkConsensus e.config (applySafetyLayer e.config signals)).1 = false →
      ((makeDecision e now signals).1.status =
          DecisionStatus.REJECTED_NO_CONSENSUS ∧
        (makeDecision e now signals).1.confidence = 0.2 ∧
        (makeDecision e now signals).1.fallback_used = true ∧
        (makeDecision e now signals).1.models_agreed =
          (checkConsensus e.config (applySafetyLayer e.config signals)).2.2 ∧
        (makeDecision e now signals).1.final_value =
          directionalFallbackSpec e.fallback_buffer
            e.config.fallback_position_scale ∧
        (e.fallback_buffer = [] →
          (makeDecision e now signals).1.final_value =
            e.config.fallback_position_scale)))) := by
  have hemp : ∀ hbuf : e.fallback_buffer = [],
      directionalFallbackSpec e.fallback_buffer e.config.fallback_position_scale =
        e.config.fallback_position_scale := by
    intro hbuf
    simp [directionalFallbackSpec, hbuf]
  constructor
  · intro hne hvalid
    rw [makeDecision_rejected_low e now signals hne hvalid]
    refine ⟨rfl, rfl, rfl, rfl, getFallbackValue_eq_spec e, ?_⟩
    intro hbuf
    simpa [getFallbackValue_eq_spec e] using hemp hbuf
  · intro hne hvalid hok
    rw [makeDecision_no_consensus e now signals hne hvalid hok]
    refine ⟨rfl, rfl, rfl, rfl, getFallbackValue_eq_spec e, ?_⟩
    intro hbuf
    simpa [getFallbackValue_eq_spec e] using hemp hbuf

/-- Witness for C6: with the default config and an empty fallback store,
the batch [(0.5,0.1,7)] loses every signal to the safety filter and
yields RejectedLowConfidence with final_value = +fallback_position_scale,
while the batch [(0.05,0.9,0)] passes the filter but fails consensus
(one model < min_models_required) and yields RejectedNoConsensus with
models_agreed = 0. -/
theorem makeDecision_rejection_branches_witness :
    (([⟨0.5, 0.1, 0, 7⟩] : List ModelSignal) ≠ [] ∧
     applySafetyLayer defaultConfig [⟨0.5, 0.1, 0, 7⟩] = [] ∧
     (makeDecision { config := defaultConfig, fallback_buffer := [] } 0
       [⟨0.5, 0.1, 0, 7⟩]).1.status = DecisionStatus.REJECTED_LOW_CONFIDENCE ∧
     (makeDecision { config := defaultConfig, fallback_buffer := [] } 0
       [⟨0.5, 0.1, 0, 7⟩]).1.final_value = defaultConfig.fallback_position_scale) ∧
    (([⟨0.05, 0.9, 0, 0⟩] : List ModelSignal) ≠ [] ∧
     applySafetyLayer defaultConfig [⟨0.05, 0.9, 0, 0⟩] ≠ [] ∧
     (checkConsensus defaultConfig
       (applySafetyLayer defaultConfig [⟨0.05, 0.9, 0, 0⟩])).1 = false ∧
     (makeDecision { config := defaultConfig, fallback_buffer := [] } 0
       [⟨0.05, 0.9, 0, 0⟩]).1.status = DecisionStatus.REJECTED_NO_CONSENSUS ∧
     (makeDecision { config := defaultConfig, fallback_buffer := [] } 0
       [⟨0.05, 0.9, 0, 0⟩]).1.models_agreed = 0) := by
  have hA : applySafetyLayer defaultConfig [⟨0.5, 0.1, 0, 7⟩] = [] := by
    norm_num [applySafetyLayer, defaultConfig]
  have hBval : applySafetyLayer defaultConfig [⟨0.05, 0.9, 0, 0⟩] =
      [⟨0.05, 0.9, 0, 0⟩] := by
    norm_num [applySafetyLayer, defaultConfig]
  have hcc2 : checkConsensus defaultConfig
      (applySafetyLayer defaultConfig [⟨0.05, 0.9, 0, 0⟩]) = (false, 0, 0) := by
    rw [hBval]
    norm_num [checkConsensus, defaultConfig]
  obtain ⟨c1, _c2, _c3, _c4, _c5, cEmpty⟩ :=
    (makeDecision_rejection_branches
      { config := defaultConfig, fallback_buffer := [] } 0
      [⟨0.5, 0.1, 0, 7⟩]).1 (by simp) hA
  obtain ⟨d1, _d2, _d3, d4, _d5, _d6⟩ :=
    (makeDecision_rejection_branches
      { config := defaultConfig, fallback_buffer := [] } 0
      [⟨0.05, 0.9, 0, 0⟩]).2 (by simp) (by rw [hBval]; simp) (by rw [hcc2])
  refine ⟨⟨by simp, hA, c1, cEmpty rfl⟩, by simp, by rw [hBval]; simp,
    by rw [hcc2], d1, ?_⟩
  rw [d4, hcc2]

/-- C4 (successful consensus): whenever makeDecision reaches consensus
success, the decision has status Valid, final_value =
tanh(consensus_value * 100), confidence = the arithmetic mean of the
confidences of all validated signals, contributing_models = the model
ids of all validated signals, models_agreed as reported by the
consensus evaluator, fallback_used = false, and final_value is pushed
into the fallback store. -/
theorem makeDecision_valid_spec (e : AILLEEngine) (now : ℕ)
    (signals : List ModelSignal) (hne : signals ≠ [])
    (hvalid : applySafetyLayer e.config signals ≠ [])
    (hok : (checkConsensus e.config (applySafetyLayer e.config signals)).1 = true) :
    (makeDecision e now signals).1.status = DecisionStatus.DECISION_VALID ∧
    (makeDecision e now signals).1.final_value =
      Real.tanh
        (((checkConsensus e.config (applySafetyLayer e.config signals)).2.1 : ℝ)
          * 100) ∧
    (makeDecision e now signals).1.confidence =
      ((applySafetyLayer e.config signals).map (fun s => s.confidence)).sum /
        ((applySafetyLayer e.config signals).length : ℚ) ∧
    (makeDecision e now signals).1.contributing_models =
      (applySafetyLayer e.config signals).map (fun s => s.model_id) ∧
    (makeDecision e now signals).1.models_agreed =
      (checkConsensus e.config (applySafetyLayer e.config signals)).2.2 ∧
    (makeDecision e now signals).1.fallback_used = false ∧
    (makeDecision e now signals).2.fallback_buffer =
      updateFallbackBuffer e.config.fallback_window_size e.fallback_buffer
        ((makeDecision e now signals).1.final_value) := by
  rw [makeDecision_valid_eq e now signals hne hvalid hok]
  refine ⟨rfl, ?_, ?_, ?_, rfl, rfl, rfl⟩
  · simp [smoothPosition]
  · rw [foldl_add_sum]
    simp
  · rw [foldl_append_one]
    simp

/-- Witness for C4, the concrete instance from the specification:
signals [(0.05,0.9,0), (0.04,0.8,1), (0.03,0.85,2)] under the default
config give a Valid decision with models_agreed = 3 and final_value =
tanh(mean(0.05,0.04,0.03) * 100). -/
theorem makeDecision_valid_spec_witness :
    ([⟨0.05, 0.9, 0, 0⟩, ⟨0.04, 0.8, 0, 1⟩, ⟨0.03, 0.85, 0, 2⟩] :
        List ModelSignal) ≠ [] ∧
    applySafetyLayer defaultConfig
      [⟨0.05, 0.9, 0, 0⟩, ⟨0.04, 0.8, 0, 1⟩, ⟨0.03, 0.85, 0, 2⟩] ≠ [] ∧
    (checkConsensus defaultConfig
      (applySafetyLayer defaultConfig
        [⟨0.05, 0.9, 0, 0⟩, ⟨0.04, 0.8, 0, 1⟩, ⟨0.03, 0.85, 0, 2⟩])).1 = true ∧
    (makeDecision { config := defaultConfig, fallback_buffer := [] } 0
      [⟨0.05, 0.9, 0, 0⟩, ⟨0.04, 0.8, 0, 1⟩, ⟨0.03, 0.85, 0, 2⟩]).1.status =
      DecisionStatus.DECISION_VALID ∧
    (makeDecision { config := defaultConfig, fallback_buffer := [] } 0
      [⟨0.05, 0.9, 0, 0⟩, ⟨0.04, 0.8, 0, 1⟩, ⟨0.03, 0.85, 0, 2⟩]).1.models_agreed
      = 3 ∧
    (makeDecision { config := defaultConfig, fallback_buffer := [] } 0
      [⟨0.05, 0.9, 0, 0⟩, ⟨0.04, 0.8, 0, 1⟩, ⟨0.03, 0.85, 0, 2⟩]).1.final_value
      = Real.tanh (((0.05 + 0.04 + 0.03) / 3 : ℝ) * 100) := by
  have heval : applySafetyLayer defaultConfig
      [⟨0.05, 0.9, 0, 0⟩, ⟨0.04, 0.8, 0, 1⟩, ⟨0.03, 0.85, 0, 2⟩] =
      [⟨0.05, 0.9, 0, 0⟩, ⟨0.04, 0.8, 0, 1⟩, ⟨0.03, 0.85, 0, 2⟩] := by
    norm_num [applySafetyLayer, defaultConfig]
  have hcc : checkConsensus defaultConfig
      (applySafetyLayer defaultConfig
        [⟨0.05, 0.9, 0, 0⟩, ⟨0.04, 0.8, 0, 1⟩, ⟨0.03, 0.85, 0, 2⟩]) =
      (true, 0.04, 3) := by
    rw [heval]
    norm_num [checkConsensus, defaultConfig, signOf,
      List.insertionSort, List.orderedInsert, Prod.ext_iff]
  have hne : ([⟨0.05, 0.9, 0, 0⟩, ⟨0.04, 0.8, 0, 1⟩, ⟨0.03, 0.85, 0, 2⟩] :
      List ModelSignal) ≠ [] := by simp
  have hvalid : applySafetyLayer defaultConfig
      [⟨0.05, 0.9, 0, 0⟩, ⟨0.04, 0.8, 0, 1⟩, ⟨0.03, 0.85, 0, 2⟩] ≠ [] := by
    rw [heval]
    simp
  have hok : (checkConsensus defaultConfig
      (applySafetyLayer defaultConfig
        [⟨0.05, 0.9, 0, 0⟩, ⟨0.04, 0.8, 0, 1⟩, ⟨0.03, 0.85, 0, 2⟩])).1 = true := by
    rw [hcc]
  obtain ⟨h1, h2, _h3, _h4, h5, _h6, _h7⟩ :=
    makeDecision_valid_spec { config := defaultConfig, fallback_buffer := [] } 0
      [⟨0.05, 0.9, 0, 0⟩, ⟨0.04, 0.8, 0, 1⟩, ⟨0.03, 0.85, 0, 2⟩] hne hvalid hok
  refine ⟨hne, hvalid, hok, h1, ?_, ?_⟩
  · rw [h5, hcc]
  · rw [h2, hcc]
    norm_num

/-! ### Fallback buffer lemmas -/

theorem fallbackTrim_eq_drop (w : ℕ) (l : List ℝ) :
    fallbackTrim w l = l.drop (l.length - w) := by
  induction l with
  | nil =>
    rw [fallbackTrim]
    simp
  | cons a t ih =>
    rw [fallbackTrim]
    by_cases h : (a :: t).length > w
    · rw [dif_pos h]
      simp only [List.tail_cons]
      rw [ih]
      have hlen : (a :: t).length - w = (t.length - w) + 1 := by
        simp only [List.length_cons]
        simp only [List.length_cons] at h
        omega
      rw [hlen, List.drop_succ_cons]
    · rw [dif_neg h]
      have hlen : (a :: t).length - w = 0 := by
        simp only [List.length_cons] at h ⊢
        omega
      rw [hlen, List.drop_zero]

theorem updateFallbackBuffer_length_le (w : ℕ) (buf : List ℝ) (v : ℝ) :
    (updateFallbackBuffer w buf v).length ≤ w := by
  rw [updateFallbackBuffer, fallbackTrim_eq_drop]
  simp only [List.length_drop, List.length_append, List.length_singleton]
  omega

theorem updateFallbackBuffer_full (w : ℕ) (buf : List ℝ) (v : ℝ)
    (hw : 1 ≤ w) (hfull : buf.length = w) :
    updateFallbackBuffer w buf v = buf.tail ++ [v] := by
  rw [updateFallbackBuffer, fallbackTrim_eq_drop]
  have h1 : (buf ++ [v]).length - w = 1 := by
    simp only [List.length_append, List.length_singleton, hfull]
    omega
  rw [h1]
  cases buf with
  | nil =>
    simp only [List.length_nil] at hfull
    omega
  | cons a t => simp

theorem makeDecision_cases (e : AILLEEngine) (now : ℕ)
    (signals : List ModelSignal) :
    ((makeDecision e now signals).1.status ≠ DecisionStatus.DECISION_VALID ∧
      (makeDecision e now signals).2 = e) ∨
    ((makeDecision e now signals).1.status = DecisionStatus.DECISION_VALID ∧
      (makeDecision e now signals).2 =
        { e with fallback_buffer :=
            (updateFallbackBuffer e.config.fallback_window_size e.fallback_buffer
              ((makeDecision e now signals).1.final_value)) }) := by
  by_cases h1 : signals = []
  · subst h1
    rw [makeDecision_nil]
    exact Or.inl ⟨by simp, rfl⟩
  · by_cases h2 : applySafetyLayer e.config signals = []
    · rw [makeDecision_rejected_low e now signals h1 h2]
      exact Or.inl ⟨by simp, rfl⟩
    · by_cases h3 :
        (checkConsensus e.config (applySafetyLayer e.config signals)).1 = false
      · rw [makeDecision_no_consensus e now signals h1 h2 h3]
        exact Or.inl ⟨by simp, rfl⟩
      · have h3t :
            (checkConsensus e.config (applySafetyLayer e.config signals)).1 =
              true := by
          simpa using h3
        rw [makeDecision_valid_eq e now signals h1 h2 h3t]
        exact Or.inr ⟨rfl, rfl⟩

theorem applyOp_inv (cfg : AILLEConfig) (e : AILLEEngine) (op : EngineOp)
    (hc : e.config = cfg)
    (hl : e.fallback_buffer.length ≤ cfg.fallback_window_size) :
    (applyOp e op).config = cfg ∧
      (applyOp e op).fallback_buffer.length ≤ cfg.fallback_window_size := by
  cases op with
  | reset => exact ⟨hc, by simp [applyOp, resetEngine]⟩
  | call now signals =>
    rcases makeDecision_cases e now signals with ⟨_, h⟩ | ⟨_, h⟩
    · simp only [applyOp]
      rw [h]
      exact ⟨hc, hl⟩
    · simp only [applyOp]
      rw [h]
      refine ⟨hc, ?_⟩
      simp only []
      rw [hc]
      exact updateFallbackBuffer_length_le cfg.fallback_window_size
        e.fallback_buffer _

theorem runOps_inv (cfg : AILLEConfig) (ops : List EngineOp) :
    ∀ e : AILLEEngine, e.config = cfg →
      e.fallback_buffer.length ≤ cfg.fallback_window_size →
      (runOps e ops).config = cfg ∧
        (runOps e ops).fallback_buffer.length ≤ cfg.fallback_window_size := by
  induction ops with
  | nil => intro e hc hl; exact ⟨hc, hl⟩
  | cons op rest ih =>
    intro e hc hl
    have h1 := applyOp_inv cfg e op hc hl
    simpa [runOps] using ih (applyOp e op) h1.1 h1.2

/-- C7 (fallback store invariants): after any sequence of makeDecision
and reset operations from a fresh engine the buffer size never exceeds
fallback_window_size; a push onto a full store evicts exactly the
oldest element (strict FIFO); and any makeDecision outcome other than
Valid leaves the buffer contents unchanged. -/
theorem fallbackStore_invariants :
    (∀ (cfg : AILLEConfig) (ops : List EngineOp),
      (runOps { config := cfg, fallback_buffer := [] } ops).fallback_buffer.length
        ≤ cfg.fallback_window_size) ∧
    (∀ (w : ℕ) (buf : List ℝ) (v : ℝ), 1 ≤ w → buf.length = w →
      updateFallbackBuffer w buf v = buf.tail ++ [v]) ∧
    (∀ (e : AILLEEngine) (now : ℕ) (signals : List ModelSignal),
      (makeDecision e now signals).1.status ≠ DecisionStatus.DECISION_VALID →
      (makeDecision e now signals).2 = e) := by
  refine ⟨?_, ?_, ?_⟩
  · intro cfg ops
    exact (runOps_inv cfg ops { config := cfg, fallback_buffer := [] } rfl
      (by simp)).2
  · intro w buf v hw hfull
    exact updateFallbackBuffer_full w buf v hw hfull
  · intro e now signals h
    rcases makeDecision_cases e now signals with ⟨_, h2⟩ | ⟨hvalid, _⟩
    · exact h2
    · exact absurd hvalid h

/-- Witness for C7, the concrete instance from the specification: with
window size 3, pushing 0.1, 0.2, 0.3, 0.4 leaves exactly
[0.2, 0.3, 0.4] with mean 0.3; and a non-Valid makeDecision outcome
leaves the engine untouched. -/
theorem fallbackStore_invariants_witness :
    ((1 : ℕ) ≤ 3 ∧ ([0.1, 0.2, 0.3] : List ℝ).length = 3 ∧
      updateFallbackBuffer 3 [0.1, 0.2, 0.3] 0.4 = [0.2, 0.3, 0.4]) ∧
    updateFallbackBuffer 3
      (updateFallbackBuffer 3
        (updateFallbackBuffer 3 (updateFallbackBuffer 3 [] 0.1) 0.2) 0.3) 0.4 =
      [0.2, 0.3, 0.4] ∧
    calculateFallbackValue [0.2, 0.3, 0.4] = 0.3 ∧
    ((makeDecision { config := defaultConfig, fallback_buffer := [0.5] } 0
        []).1.status ≠ DecisionStatus.DECISION_VALID ∧
      (makeDecision { config := defaultConfig, fallback_buffer := [0.5] } 0
        []).2 = { config := defaultConfig, fallback_buffer := [0.5] }) := by
  have hpush : updateFallbackBuffer 3 [0.1, 0.2, 0.3] 0.4 = [0.2, 0.3, 0.4] := by
    have := fallbackStore_invariants.2.1 3 [0.1, 0.2, 0.3] 0.4 (by norm_num)
      (by simp)
    simpa using this
  have hsteps : updateFallbackBuffer 3
      (updateFallbackBuffer 3
        (updateFallbackBuffer 3 (updateFallbackBuffer 3 [] 0.1) 0.2) 0.3) =
      updateFallbackBuffer 3 [0.1, 0.2, 0.3] := by
    simp [updateFallbackBuffer, fallbackTrim_eq_drop]
  have hstat : (makeDecision { config := defaultConfig, fallback_buffer := [0.5] }
      0 []).1.status ≠ DecisionStatus.DECISION_VALID := by
    rw [makeDecision_nil]
    simp
  refine ⟨⟨by norm_num, by simp, hpush⟩, ?_, ?_, hstat, ?_⟩
  · rw [hsteps, hpush]
  · rw [calculateFallbackValue_eq,
      if_neg (by simp : ¬([0.2, 0.3, 0.4] : List ℝ) = [])]
    norm_num [List.sum_cons, List.sum_nil]
  · exact fallbackStore_invariants.2.2
      { config := defaultConfig, fallback_buffer := [0.5] } 0 [] hstat

/-! ### Audit ledger lemmas -/

theorem chainFrom_append (r : AuditRecord) (l : List AuditRecord) :
    ∀ p : String, chainFrom p l → r.prev_hash = chainEnd p l →
      chainFrom p (l ++ [r]) := by
  induction l with
  | nil =>
    intro p _ h2
    exact ⟨by simpa [chainEnd] using h2, trivial⟩
  | cons a t ih =>
    intro p h1 h2
    exact ⟨h1.1, ih a.hash h1.2 (by simpa [chainEnd] using h2)⟩

theorem chainEnd_append (r : AuditRecord) (l : List AuditRecord) :
    ∀ p : String, chainEnd p (l ++ [r]) = r.hash := by
  induction l with
  | nil => intro p; simp [chainEnd]
  | cons a t ih => intro p; simpa [chainEnd] using ih a.hash

theorem verifyChain_of_chainFrom (l : List AuditRecord) :
    ∀ p : String, chainFrom p l → verifyChain p l = true := by
  induction l with
  | nil => intro p _; rfl
  | cons a t ih =>
    intro p h
    simp only [verifyChain, if_pos h.1]
    exact ih a.hash h.2

theorem logDecision_inv (strHash : String → ℕ) (floatStr : ℝ → String)
    (timeStr : ℕ → String) (L : AuditLogger) (d : Decision)
    (sym strat : String)
    (h1 : chainFrom genesisHash L.audit_trail)
    (h2 : L.last_hash = chainEnd genesisHash L.audit_trail)
    (h3 : L.next_decision_id = L.audit_trail.length + 1)
    (h4 : L.audit_trail.map (fun r => r.decision_id) =
      List.range' 1 L.audit_trail.length) :
    chainFrom genesisHash
      (logDecision strHash floatStr timeStr L d sym strat).audit_trail ∧
    (logDecision strHash floatStr timeStr L d sym strat).last_hash =
      chainEnd genesisHash
        (logDecision strHash floatStr timeStr L d sym strat).audit_trail ∧
    (logDecision strHash floatStr timeStr L d sym strat).next_decision_id =
      (logDecision strHash floatStr timeStr L d sym strat).audit_trail.length
        + 1 ∧
    (logDecision strHash floatStr timeStr L d sym strat).audit_trail.map
        (fun r => r.decision_id) =
      List.range' 1
        (logDecision strHash floatStr timeStr L d sym strat).audit_trail.length
    := by
  have hprev : (mkAuditRecord strHash floatStr L d sym strat).prev_hash =
      L.last_hash := rfl
  have hid : (mkAuditRecord strHash floatStr L d sym strat).decision_id =
      L.next_decision_id := rfl
  refine ⟨?_, ?_, ?_, ?_⟩
  · simp only [logDecision]
    exact chainFrom_append _ _ genesisHash h1 (by rw [hprev, h2])
  · simp only [logDecision]
    rw [chainEnd_append]
  · simp only [logDecision, List.length_append, List.length_singleton]
    omega
  · simp only [logDecision, List.map_append, List.length_append,
      List.length_singleton, List.map_cons, List.map_nil]
    rw [h4, hid, h3, List.range'_concat]
    simp [Nat.add_comm]

theorem runLog_inv (strHash : String → ℕ) (floatStr : ℝ → String)
    (timeStr : ℕ → String) (ds : List (Decision × String × String)) :
    ∀ L : AuditLogger,
      chainFrom genesisHash L.audit_trail →
      L.last_hash = chainEnd genesisHash L.audit_trail →
      L.next_decision_id = L.audit_trail.length + 1 →
      L.audit_trail.map (fun r => r.decision_id) =
        List.range' 1 L.audit_trail.length →
      chainFrom genesisHash
        (runLog strHash floatStr timeStr L ds).audit_trail ∧
      (runLog strHash floatStr timeStr L ds).last_hash =
        chainEnd genesisHash
          (runLog strHash floatStr timeStr L ds).audit_trail ∧
      (runLog strHash floatStr timeStr L ds).next_decision_id =
        (runLog strHash floatStr timeStr L ds).audit_trail.length + 1 ∧
      (runLog strHash floatStr timeStr L ds).audit_trail.map
          (fun r => r.decision_id) =
        List.range' 1 (runLog strHash floatStr timeStr L ds).audit_trail.length
    := by
  induction ds with
  | nil =>
    intro L h1 h2 h3 h4
    exact ⟨h1, h2, h3, h4⟩
  | cons x rest ih =>
    intro L h1 h2 h3 h4
    have hstep := logDecision_inv strHash floatStr timeStr L x.1 x.2.1 x.2.2
      h1 h2 h3 h4
    simpa [runLog] using
      ih (logDecision strHash floatStr timeStr L x.1 x.2.1 x.2.2)
        hstep.1 hstep.2.1 hstep.2.2.1 hstep.2.2.2

theorem runLog_trail_length (strHash : String → ℕ) (floatStr : ℝ → String)
    (timeStr : ℕ → String) (ds : List (Decision × String × String)) :
    ∀ L : AuditLogger,
      (runLog strHash floatStr timeStr L ds).audit_trail.length =
        L.audit_trail.length + ds.length := by
  induction ds with
  | nil => intro L; simp [runLog]
  | cons x rest ih =>
    intro L
    have := ih (logDecision strHash floatStr timeStr L x.1 x.2.1 x.2.2)
    simp only [runLog, List.foldl_cons] at this ⊢
    rw [this]
    simp [logDecision]
    omega

/-- C2 (chain well-formedness): after any sequence of logDecision calls
on a fresh logger, the first record's prev_hash is the genesis sentinel
"0000000000000000", every later record's prev_hash is the preceding
record's hash, the decision_ids are exactly 1, 2, ..., n (gap-free,
strictly increasing, one per call), and verifyIntegrity() returns true
(including for the empty trail). -/
theorem auditTrail_wellformed (strHash : String → ℕ) (floatStr : ℝ → String)
    (timeStr : ℕ → String) (file_open : Bool)
    (ds : List (Decision × String × String)) :
    chainFrom genesisHash
      (runLog strHash floatStr timeStr (freshLogger file_open) ds).audit_trail ∧
    (runLog strHash floatStr timeStr (freshLogger file_open) ds).audit_trail.map
        (fun r => r.decision_id) = List.range' 1 ds.length ∧
    (runLog strHash floatStr timeStr (freshLogger file_open) ds).audit_trail.length
      = ds.length ∧
    verifyIntegrity (runLog strHash floatStr timeStr (freshLogger file_open) ds)
      = true := by
  have hlen := runLog_trail_length strHash floatStr timeStr ds
    (freshLogger file_open)
  have hfresh1 : chainFrom genesisHash (freshLogger file_open).audit_trail :=
    trivial
  have h := runLog_inv strHash floatStr timeStr ds (freshLogger file_open)
    hfresh1 rfl rfl rfl
  have hlen' : (runLog strHash floatStr timeStr (freshLogger file_open)
      ds).audit_trail.length = ds.length := by
    simpa [freshLogger] using hlen
  refine ⟨h.1, ?_, hlen', ?_⟩
  · rw [h.2.2.2, hlen']
  · unfold verifyIntegrity
    by_cases hemp : (runLog strHash floatStr timeStr (freshLogger file_open)
        ds).audit_trail.isEmpty
    · rw [if_pos hemp]
    · rw [if_neg hemp]
      exact verifyChain_of_chainFrom _ genesisHash h.1

/-- C1 is a code bug: verifyIntegrity only re-checks the stored
prev_hash/hash linkage and never recomputes any record's digest, so
mutating one stored record's final_value in place (hashes untouched)
goes undetected.  Concretely: log two decisions, overwrite the first
record's final_value (0 becomes 42), and verifyIntegrity still returns
true, for every hash function and float rendering. -/
theorem verifyIntegrity_misses_tampering (strHash : String → ℕ)
    (floatStr : ℝ → String) (timeStr : ℕ → String) :
    verifyIntegrity
      (tamperFinalValue
        (runLog strHash floatStr timeStr (freshLogger false)
          [(defaultDecision, "", ""), (defaultDecision, "", "")]) 42) = true ∧
    (tamperFinalValue
        (runLog strHash floatStr timeStr (freshLogger false)
          [(defaultDecision, "", ""), (defaultDecision, "", "")])
        42).audit_trail.head?.map (fun r => r.final_value) = some 42 ∧
    (runLog strHash floatStr timeStr (freshLogger false)
        [(defaultDecision, "", ""), (defaultDecision, "", "")]).audit_trail.head?.map
      (fun r => r.final_value) = some 0 ∧
    (42 : ℝ) ≠ 0 := by
  refine ⟨?_, ?_, ?_, by norm_num⟩
  · simp [runLog, logDecision, freshLogger, mkAuditRecord, tamperFinalValue,
      List.modifyHead, verifyIntegrity, verifyChain, defaultDecision]
  · simp [runLog, logDecision, freshLogger, mkAuditRecord, tamperFinalValue,
      List.modifyHead]
  · simp [runLog, logDecision, freshLogger, mkAuditRecord, defaultDecision]

/-- C8 is a code bug: AuditLogger::logDecision returns void and, when
the backing file is not open, silently skips the durable write while
still appending to the in-memory trail; nothing in the caller-visible
result distinguishes the failed persistence from a successful one (only
the file contents differ), so the persistence failure is not surfaced
through the result of the append. -/
theorem logDecision_silent_on_closed_file (strHash : String → ℕ)
    (floatStr : ℝ → String) (timeStr : ℕ → String) (d : Decision)
    (sym strat : String) :
    (logDecision strHash floatStr timeStr (freshLogger false) d sym
        strat).audit_trail =
      [mkAuditRecord strHash floatStr (freshLogger false) d sym strat] ∧
    (logDecision strHash floatStr timeStr (freshLogger false) d sym
        strat).file_lines = [] ∧
    (logDecision strHash floatStr timeStr (freshLogger false) d sym
        strat).audit_trail =
      (logDecision strHash floatStr timeStr (freshLogger true) d sym
        strat).audit_trail ∧
    (logDecision strHash floatStr timeStr (freshLogger false) d sym
        strat).next_decision_id =
      (logDecision strHash floatStr timeStr (freshLogger true) d sym
        strat).next_decision_id ∧
    (logDecision strHash floatStr timeStr (freshLogger false) d sym
        strat).last_hash =
      (logDecision strHash floatStr timeStr (freshLogger true) d sym
        strat).last_hash := by
  refine ⟨?_, ?_, ?_, rfl, rfl⟩
  · simp [logDecision, freshLogger]
  · simp [logDecision, freshLogger]
  · simp [logDecision, freshLogger, mkAuditRecord]

/-- C10 (digest field coverage): the aille.hpp computeHash reads only
timestamp_ns, decision_id, final_value, confidence, reasoning and
prev_hash, so two records agreeing on those six fields hash identically
whatever their status, models_agreed, fallback_used, symbol or
strategy_id; the aille_audit.cpp variant additionally reads
models_agreed but still ignores status, fallback_used,
contributing_models, symbol, strategy_id and user_id. -/
theorem computeHash_ignores_unstreamed_fields (strHash : String → ℕ)
    (floatStr : ℝ → String) :
    (∀ r1 r2 : AuditRecord,
      r1.timestamp_ns = r2.timestamp_ns → r1.decision_id = r2.decision_id →
      r1.final_value = r2.final_value → r1.confidence = r2.confidence →
      r1.reasoning = r2.reasoning → r1.prev_hash = r2.prev_hash →
      computeHash strHash floatStr r1 = computeHash strHash floatStr r2) ∧
    (∀ r1 r2 : AuditCpp.AuditRecordC,
      r1.timestamp_ns = r2.timestamp_ns → r1.decision_id = r2.decision_id →
      r1.final_value = r2.final_value → r1.confidence = r2.confidence →
      r1.models_agreed = r2.models_agreed → r1.reasoning = r2.reasoning →
      r1.prev_hash = r2.prev_hash →
      AuditCpp.computeHashC strHash floatStr r1 =
        AuditCpp.computeHashC strHash floatStr r2) := by
  constructor
  · intro r1 r2 e1 e2 e3 e4 e5 e6
    unfold computeHash
    rw [e1, e2, e3, e4, e5, e6]
  · intro r1 r2 e1 e2 e3 e4 e5 e6 e7
    unfold AuditCpp.computeHashC
    rw [e1, e2, e3, e4, e5, e6, e7]

/-- Witness for C10: two concrete records that differ in status,
models_agreed, fallback_used, symbol and strategy_id but agree on the
six streamed fields receive the same aille.hpp digest, and two concrete
cpp-variant records differing in status, fallback_used,
contributing_models, symbol, strategy_id and user_id receive the same
aille_audit.cpp digest. -/
theorem computeHash_ignores_unstreamed_fields_witness :
    ((⟨1, 2, DecisionStatus.DECISION_VALID, 0, 0, 5, false, "r", "sym1",
        "strat1", "h", "p"⟩ : AuditRecord).status ≠
      (⟨1, 2, DecisionStatus.REJECTED_LOW_CONFIDENCE, 0, 0, 7, true, "r",
        "sym2", "strat2", "h", "p"⟩ : AuditRecord).status ∧
     (⟨1, 2, DecisionStatus.DECISION_VALID, 0, 0, 5, false, "r", "sym1",
        "strat1", "h", "p"⟩ : AuditRecord).models_agreed ≠
      (⟨1, 2, DecisionStatus.REJECTED_LOW_CONFIDENCE, 0, 0, 7, true, "r",
        "sym2", "strat2", "h", "p"⟩ : AuditRecord).models_agreed ∧
     computeHash (fun s => s.length) (fun _ => "f")
        (⟨1, 2, DecisionStatus.DECISION_VALID, 0, 0, 5, false, "r", "sym1",
          "strat1", "h", "p"⟩ : AuditRecord) =
      computeHash (fun s => s.length) (fun _ => "f")
        (⟨1, 2, DecisionStatus.REJECTED_LOW_CONFIDENCE, 0, 0, 7, true, "r",
          "sym2", "strat2", "h", "p"⟩ : AuditRecord)) ∧
    AuditCpp.computeHashC (fun s => s.length) (fun _ => "f")
        (⟨1, 2, DecisionStatus.DECISION_VALID, 0, 0, 5, false, "r", [0, 1],
          "sym1", "strat1", "userA", "h", "p"⟩ : AuditCpp.AuditRecordC) =
      AuditCpp.computeHashC (fun s => s.length) (fun _ => "f")
        (⟨1, 2, DecisionStatus.REJECTED_NO_CONSENSUS, 0, 0, 5, true, "r", [2],
          "sym2", "strat2", "userB", "h", "p"⟩ : AuditCpp.AuditRecordC) := by
  refine ⟨⟨by simp, by simp, ?_⟩, ?_⟩
  · exact (computeHash_ignores_unstreamed_fields (fun s => s.length)
      (fun _ => "f")).1 _ _ rfl rfl rfl rfl rfl rfl
  · exact (computeHash_ignores_unstreamed_fields (fun s => s.length)
      (fun _ => "f")).2 _ _ rfl rfl rfl rfl rfl rfl rfl

end AILLE
